/-
  Verification of the NewsQuant news-driven signal engine.

  This file gives a shallow embedding, in Lean 4, of the core algorithms of
  the repository:

  * `news_scraper/sentiment_analyzer.py` — lexicon-based sentiment scoring
    with negation handling and compound-expression overrides;
  * `news_scraper/trading_analyzer.py`   — per-stock daily aggregation,
    the price-reaction adjuster, the news-volume signal with its class-level
    cache, and the buy/sell signal classifier;
  * `scripts/optimize_thresholds.py`     — the backtest / grid-search engine
    (trading-day window, forward returns, benchmark, per-combination stats).

  Python floats are modelled as exact rationals (`ℚ`), Python `None` as
  `Option`, Python strings as `List Char` (indices are code points, as in
  Python).  Definitions follow the source line by line; theorems at the end
  of the file settle the specification claims.
-/
import Mathlib

set_option maxRecDepth 40000

namespace NewsQuant

/-- Python strings are modelled as lists of characters; `text[i]` in Python
is code-point indexing, which matches `List Char` indexing. -/
abbrev Str := List Char

/-! ### Basic Python string operations -/

/-- ASCII lowering, modelling `str.lower()` on the ASCII range (the Korean
lexicon entries are unaffected by `lower`). -/
def pyLower (c : Char) : Char :=
  if 'A' ≤ c ∧ c ≤ 'Z' then Char.ofNat (c.toNat + 32) else c

/-- Lowercase a whole text, modelling `text.lower()`. -/
def lowerStr (s : Str) : Str := s.map pyLower

/-- Does `pat` occur in `text` at index `i`? -/
def matchesAt (text pat : Str) (i : ℕ) : Bool :=
  pat.isPrefixOf (text.drop i)

/-- Search loop for `str.find`: try indices `i, i+1, …` (bounded by `fuel`). -/
def findFromAux (text pat : Str) : ℕ → ℕ → Option ℕ
  | _, 0 => none
  | i, fuel + 1 =>
    if text.length < i + pat.length then none
    else if matchesAt text pat i then some i
    else findFromAux text pat (i + 1) fuel

/-- `text.find(pat, start)`, returning `none` instead of `-1`:
the least index `≥ start` where `pat` occurs in `text`. -/
def findFrom (text pat : Str) (start : ℕ) : Option ℕ :=
  findFromAux text pat start (text.length + 1)

/-- `pat in text` (Python substring containment). -/
def containsSub (text pat : Str) : Bool :=
  (findFrom text pat 0).isSome

/-- One pass of `str.replace(pat, rep)`: replace the leftmost occurrence and
continue scanning after the replaced span (bounded by `fuel`). -/
def replaceAllAux (pat rep : Str) : Str → ℕ → Str
  | text, 0 => text
  | text, fuel + 1 =>
    match findFrom text pat 0 with
    | none => text
    | some p => text.take p ++ rep ++ replaceAllAux pat rep (text.drop (p + pat.length)) fuel

/-- `text.replace(pat, rep)`: all non-overlapping occurrences, left to right. -/
def replaceAll (text pat rep : Str) : Str :=
  replaceAllAux pat rep text (text.length + 1)

/-- `str.split()` — split on whitespace runs, discarding empty words. -/
def splitWS (s : Str) : List Str :=
  let step : Char → List Str × Str → List Str × Str := fun c acc =>
    if c.isWhitespace then
      (if acc.2.isEmpty then (acc.1, []) else (acc.2 :: acc.1, []))
    else (acc.1, c :: acc.2)
  let r := s.foldr step ([], [])
  if r.2.isEmpty then r.1 else r.2 :: r.1

/-! ### Sentiment analyzer lexicons (`SentimentAnalyzer` class constants) -/

/-- `POSITIVE_KEYWORDS` — keywords signalling expected price rise. -/
def POSITIVE_KEYWORDS : List Str := List.map String.toList [
  "상승", "증가", "성장", "호재", "실적 호조", "실적 개선", "수익 증가",
  "매출 증가", "영업이익 증가", "순이익 증가", "실적 부진 탈출",
  "반등", "회복", "개선", "향상", "증대", "확대", "성공", "최고치", "사상 최대",
  "투자 유치", "계약 체결", "수주", "납품", "공급 계약", "독점",
  "제휴", "협력", "파트너십", "업무협약",
  "긍정적", "낙관적", "기대", "전망 밝다", "유리하다", "재평가",
  "강세", "상승세", "상승 전망", "목표가 상향", "투자의견 상향", "매수 추천",
  "기술 개발", "특허", "신제품", "혁신", "세계 최초", "국내 최초",
  "러브콜", "잭팟",
  "수주 잔고 증가", "신규 수주", "공급 부족", "품절", "대기 수요",
  "가이던스 상향", "컨센서스 상회", "어닝 서프라이즈",
  "자사주 매입", "배당 확대", "배당 증가"]

/-- `NEGATIVE_KEYWORDS` — keywords signalling expected price fall. -/
def NEGATIVE_KEYWORDS : List Str := List.map String.toList [
  "하락", "감소", "손실", "부진", "실적 부진", "실적 악화",
  "수익 감소", "매출 감소", "영업이익 감소", "순이익 감소",
  "적자", "손해", "채무", "부채 증가", "자본잠식",
  "부정적", "비관적", "우려", "우려 증대", "리스크", "불확실성",
  "약세", "하락세", "하락 전망", "목표가 하향", "투자의견 하향", "매도 의견",
  "사고", "사건", "논란", "분쟁", "법적 대응",
  "제재", "조사", "수사", "기소", "압수수색", "벌금", "과징금",
  "수주 감소", "재고 증가", "가동률 하락",
  "가이던스 하향", "컨센서스 하회", "어닝 쇼크",
  "유상증자", "CB 발행", "대주주 매도", "지분 매각",
  "경영진 교체", "사퇴", "해임", "경영 위기", "횡령", "배임",
  "파업", "노조", "갈등", "내분",
  "폭락", "급락", "매도", "매도세", "하락 압력", "공매도", "반대매매"]

/-- `COMPOUND_EXPRESSIONS` — multi-word expressions with a pre-assigned
polarity, applied before individual keyword counting. -/
def COMPOUND_EXPRESSIONS : List (Str × ℤ) :=
  List.map (fun p => (String.toList p.1, p.2)) [
  ("하락 우려 해소", 1),
  ("우려 해소", 1),
  ("우려 불식", 1),
  ("부진 탈출", 1),
  ("적자 탈출", 1),
  ("하락세 반등", 1),
  ("하락세에서 반등", 1),
  ("약세 탈피", 1),
  ("손실 만회", 1),
  ("위기 극복", 1),
  ("리스크 해소", 1),
  ("불확실성 해소", 1),
  ("매도세 진정", 1),
  ("하락 제한적", 1),
  ("상승세 꺾여", -1),
  ("상승세 꺾이", -1),
  ("상승 기대 꺾", -1),
  ("성장 둔화", -1),
  ("성장세 둔화", -1),
  ("회복 지연", -1),
  ("반등 실패", -1),
  ("기대 이하", -1),
  ("기대에 못 미치", -1),
  ("기대 못 미치", -1),
  ("호재 소진", -1),
  ("강세 꺾여", -1),
  ("강세 꺾이", -1),
  ("상승 제한적", -1),
  ("개선 더뎌", -1),
  ("회복 더뎌", -1),
  ("수주 감소", -1)]

/-- `NEGATION_WORDS` — words that invert the polarity of a nearby keyword. -/
def NEGATION_WORDS : List Str := List.map String.toList [
  "안", "못", "없", "아닌", "않", "꺾", "불", "미",
  "무산", "철회", "취소", "중단", "포기", "실패"]

/-- `NEGATION_WINDOW` — a negation word within this many preceding
whitespace-separated words inverts the keyword's polarity. -/
def NEGATION_WINDOW : ℕ := 2

/-! ### Sentiment scoring (`sentiment_analyzer.py`) -/

/-- `SentimentAnalyzer._check_negation`: is there a negation word among the
last `NEGATION_WINDOW` whitespace-separated words of `text[:keyword_pos]`?
(The Python method also receives the keyword, but only uses its position.) -/
def check_negation (text : Str) (keyword_pos : ℕ) : Bool :=
  let words_before := splitWS (text.take keyword_pos)
  let words_to_check := words_before.drop (words_before.length - NEGATION_WINDOW)
  words_to_check.any fun word => NEGATION_WORDS.any fun neg => containsSub word neg

/-- The `while True` scan of `_count_with_negation` for a single keyword:
find each occurrence from `start`, classify it by `check_negation`, and
continue after the occurrence (bounded by `fuel`). -/
def countKwAux (text kw : Str) : ℕ → ℕ → ℕ × ℕ → ℕ × ℕ
  | _, 0, acc => acc
  | start, fuel + 1, acc =>
    match findFrom text kw start with
    | none => acc
    | some p =>
      if check_negation text p then
        countKwAux text kw (p + kw.length) fuel (acc.1, acc.2 + 1)
      else
        countKwAux text kw (p + kw.length) fuel (acc.1 + 1, acc.2)

/-- `SentimentAnalyzer._count_with_negation`: returns
`(normal_count, negated_count)` summed over all keywords. -/
def count_with_negation (text : Str) (keywords : List Str) : ℕ × ℕ :=
  keywords.foldl (fun acc kw => countKwAux text kw 0 (text.length + 1) acc) (0, 0)

/-- Step 1 of `calculate_sentiment_score`: the summed polarity of every
compound expression occurring in the lowercased text. -/
def compoundScore (text_lower : Str) : ℤ :=
  COMPOUND_EXPRESSIONS.foldl
    (fun acc es => if containsSub text_lower es.1 then acc + es.2 else acc) 0

/-- Step 2 preprocessing of `calculate_sentiment_score`: remove every
matched compound expression from the text before keyword counting. -/
def textForKeywords (text_lower : Str) : Str :=
  COMPOUND_EXPRESSIONS.foldl
    (fun acc es => if containsSub acc es.1 then replaceAll acc es.1 [' '] else acc)
    text_lower

/-- The effective `(positive_count, negative_count)` of
`calculate_sentiment_score`: direct hits plus negation-inverted hits of the
opposite lexicon, plus the compound score on the matching side. -/
def sentimentCounts (text : Str) : ℕ × ℕ :=
  let text_lower := lowerStr text
  let cs := compoundScore text_lower
  let tfk := textForKeywords text_lower
  let posCounts := count_with_negation tfk POSITIVE_KEYWORDS
  let negCounts := count_with_negation tfk NEGATIVE_KEYWORDS
  let positive_count := posCounts.1 + negCounts.2 + (if 0 < cs then cs.natAbs else 0)
  let negative_count := negCounts.1 + posCounts.2 + (if cs < 0 then cs.natAbs else 0)
  (positive_count, negative_count)

/-- Step 3 of `calculate_sentiment_score`: the ratio-based score,
with the source's `max(1, count + 1)` denominators. -/
def ratioScore (positive_count negative_count : ℕ) : ℚ :=
  if positive_count < negative_count then
    -(min 1 ((negative_count : ℚ) / (max 1 (positive_count + 1) : ℕ)))
  else if negative_count < positive_count then
    min 1 ((positive_count : ℚ) / (max 1 (negative_count + 1) : ℕ))
  else 0

/-- Step 4 of `calculate_sentiment_score`: the ±0.5 fallback, applied only
when the ratio computation returned exactly 0. -/
def fallbackScore (score : ℚ) (positive_count negative_count : ℕ) : ℚ :=
  if score = 0 then
    if 0 < negative_count ∧ positive_count = 0 then -(1/2)
    else if 0 < positive_count ∧ negative_count = 0 then 1/2
    else score
  else score

/-- `SentimentAnalyzer.calculate_sentiment_score`: empty text scores `0.0`;
otherwise compound matching, negation-aware keyword counting, the ratio
score, the fallback, and the final clamp to `[-1, 1]`. -/
def calculate_sentiment_score (text : Str) : ℚ :=
  if text.isEmpty then 0
  else
    let counts := sentimentCounts text
    let score := ratioScore counts.1 counts.2
    let score := fallbackScore score counts.1 counts.2
    max (-1) (min 1 score)

/-! ### Occurrence-based characterization of the counting loop -/

/-- The list of occurrence positions visited by the `while True` scan of
`_count_with_negation`: each occurrence is found from `start` and the scan
resumes after it (bounded by `fuel`). -/
def occPosAux (text kw : Str) : ℕ → ℕ → List ℕ
  | _, 0 => []
  | start, fuel + 1 =>
    match findFrom text kw start with
    | none => []
    | some p => p :: occPosAux text kw (p + kw.length) fuel

/-- All occurrence positions of `kw` in `text` under the source's
non-overlapping left-to-right scan. -/
def occurrencesOf (text kw : Str) : List ℕ :=
  occPosAux text kw 0 (text.length + 1)

/-- Occurrences of any of `kws` in `text` that have no negation marker in
their preceding window: these count with the lexicon's own polarity. -/
def normalHits (text : Str) (kws : List Str) : ℕ :=
  (kws.map fun kw =>
    ((occurrencesOf text kw).filter fun p => !check_negation text p).length).sum

/-- Occurrences of any of `kws` in `text` that do have a negation marker in
their preceding window: these count with inverted polarity. -/
def negatedHits (text : Str) (kws : List Str) : ℕ :=
  (kws.map fun kw =>
    ((occurrencesOf text kw).filter fun p => check_negation text p).length).sum

/-- The ratio rule exactly as the specification states it (denominators
`pos + 1` and `neg + 1`, without the source's redundant `max(1, ·)`). -/
def specRatioScore (pos neg : ℕ) : ℚ :=
  if pos < neg then -(min 1 ((neg : ℚ) / (pos + 1)))
  else if neg < pos then min 1 ((pos : ℚ) / (neg + 1))
  else 0

/-! ### Trading analyzer (`trading_analyzer.py`) -/

/-- Python's builtin `min(a, b)` on floats: `a` if `a ≤ b`, else `b`. -/
def pyMin (a b : ℚ) : ℚ := if a ≤ b then a else b

lemma pyMin_eq_min (a b : ℚ) : pyMin a b = min a b := by
  rw [pyMin, min_def]

/-- A scored news article as the analyzer consumes it: nullable sentiment
and composite scores and the list of related stock codes (the source stores
the codes as a comma-separated string and splits/strips them; we model the
already-split list). -/
structure Article where
  sentiment : Option ℚ
  overall : Option ℚ
  relatedStocks : List String
deriving DecidableEq, Repr

/-- The non-null sentiment scores of a list of articles, in order. -/
def sentimentScoresOf (l : List Article) : List ℚ := l.filterMap Article.sentiment

/-- The non-null overall scores of a list of articles, in order. -/
def overallScoresOf (l : List Article) : List ℚ := l.filterMap Article.overall

/-- `sum(xs)/len(xs) if xs else 0.0` — the mean used throughout the source. -/
def avgOf (xs : List ℚ) : ℚ := if xs.isEmpty then 0 else xs.sum / xs.length

/-- `TradingAnalyzer._adjust_for_price_reaction`.  `closes` is the `종가`
(close) column of the fetched daily-price frame sorted by date descending
(most recent first), or `none` when the fetch returned no frame; `days` is
the lookback (default 3).  The source's `prior is None or current is None`
guards disappear because the embedded closes are non-null rationals. -/
def adjust_for_price_reaction (sentiment : ℚ) (closes : Option (List ℚ))
    (days : ℕ) : ℚ :=
  if sentiment = 0 then 0
  else
    match closes with
    | none => sentiment
    | some cs =>
      if cs.length < 2 then sentiment
      else
        let current := cs.headD 0
        let prior := cs.getD (min days (cs.length - 1)) 0
        if prior ≤ 0 then sentiment
        else
          let prior_return := (current - prior) / prior
          if 0 < sentiment ∧ 3/100 < prior_return then sentiment * (3/10)
          else if sentiment < 0 ∧ prior_return < -(3/100) then sentiment * (3/10)
          else if 0 < sentiment ∧ prior_return < -(1/100) then sentiment * (3/2)
          else if sentiment < 0 ∧ 1/100 < prior_return then sentiment * (3/2)
          else sentiment

/-- `len(code) == 6 and code.isdigit()` — the stock-code validity filter. -/
def validCode (c : String) : Bool := c.length = 6 && c.toList.all Char.isDigit

/-- The class-level news-volume cache of `TradingAnalyzer`:
`_volume_cache_loaded` and `_volume_cache` (an association list modelling
the dict; `lookup` finds the most recent binding first). -/
structure VolumeCache where
  loaded : Bool
  cache : List (String × ℚ)
deriving DecidableEq, Repr

/-- A row of the volume query in `_load_volume_cache`:
`(DATE(published_at), related_stocks)` with the related stocks already
split on commas and stripped. -/
abbrev VolumeRow := ℕ × List String

/-- The per-(stock, date) mention count `stock_daily[code][d]` accumulated by
`_load_volume_cache` (only valid 6-digit codes are counted). -/
def volCountFor (rows : List VolumeRow) (code : String) (d : ℕ) : ℕ :=
  ((rows.filter fun r => r.1 = d).map fun r =>
    (r.2.filter validCode).count code).sum

/-- The dates on which `code` is mentioned at least once (the keys of
`stock_daily[code]`). -/
def volDatesFor (rows : List VolumeRow) (code : String) : List ℕ :=
  ((rows.filter fun r => (r.2.filter validCode).contains code).map Prod.fst).dedup

/-- Insert into a descending-sorted list of dates. -/
def insertDesc (x : ℕ) : List ℕ → List ℕ
  | [] => [x]
  | y :: ys => if y ≤ x then x :: y :: ys else y :: insertDesc x ys

/-- `sorted(dates, reverse=True)`. -/
def sortDesc (l : List ℕ) : List ℕ := l.foldr insertDesc []

/-- The 20-trailing-day average news count for one stock computed by
`_load_volume_cache`: the most recent date is dropped (today excluded) and
the next 20 dates' counts are averaged; fewer than two dates give 0. -/
def volAvgFor (rows : List VolumeRow) (code : String) : ℚ :=
  let dates := sortDesc (volDatesFor rows code)
  if dates.length ≤ 1 then 0
  else
    let counts := ((dates.drop 1).take 20).map fun d => (volCountFor rows code d : ℚ)
    if counts.isEmpty then 0 else counts.sum / counts.length

/-- The codes with at least one valid mention (the keys of `stock_daily`). -/
def volCodes (rows : List VolumeRow) : List String :=
  (rows.flatMap fun r => r.2.filter validCode).dedup

/-- `TradingAnalyzer._load_volume_cache`: a no-op when the class-level flag
is already set; otherwise computes every stock's trailing average and writes
it into the dict (existing entries for other codes survive, modelled by
appending the fresh bindings in front). -/
def load_volume_cache (st : VolumeCache) (rows : List VolumeRow) : VolumeCache :=
  if st.loaded then st
  else ⟨true, (volCodes rows).map (fun c => (c, volAvgFor rows c)) ++ st.cache⟩

/-- `TradingAnalyzer._volume_signal`: news-volume contrarian signal from the
cached trailing average (`avg_count = cache.get(code, 0)`). -/
def volume_signal (st : VolumeCache) (code : String) (today_count : ℕ) : ℚ :=
  let avg := (st.cache.lookup code).getD 0
  if avg ≤ 0 then 0
  else
    let ratio := (today_count : ℚ) / avg
    if 3 ≤ ratio then -(1/2)
    else if 2 ≤ ratio then -(1/5)
    else if ratio < 1/2 then 1/10
    else 0

/-- One entry of `stock_stats` in `analyze_today_stocks`. -/
structure StockStat where
  stock_code : String
  news_count : ℕ
  avg_sentiment : ℚ
  adjusted_sentiment : ℚ
  avg_overall : ℚ
  composite_score : ℚ
  volume_signal : ℚ
  positive_count : ℕ
  negative_count : ℕ
  neutral_count : ℕ
  high_score_count : ℕ
  positive_ratio : ℚ
deriving DecidableEq, Repr

/-- The news list collected for one stock code by the grouping loop of
`analyze_today_stocks`: each article is appended once per occurrence of the
code in its `related_stocks`. -/
def articlesFor (arts : List Article) (code : String) : List Article :=
  arts.flatMap fun a => List.replicate (a.relatedStocks.count code) a

/-- The per-stock body of `analyze_today_stocks`: aggregates one stock's
articles into a `StockStat` (skipped — `none` — when the stock has no news),
using the price history for the price-reaction adjustment and the class-level
volume cache (loaded on first use from the volume query rows). -/
def stock_stat_for (arts : List Article) (code : String)
    (closes : Option (List ℚ)) (st : VolumeCache) (rows : List VolumeRow) :
    Option StockStat :=
  let mine := articlesFor arts code
  let n := mine.length
  if n = 0 then none
  else
    let sscores := sentimentScoresOf mine
    let oscores := overallScoresOf mine
    let avg_sentiment := avgOf sscores
    let avg_overall := avgOf oscores
    let adjusted := adjust_for_price_reaction avg_sentiment closes 3
    let loaded := load_volume_cache st rows
    let vol := volume_signal loaded code n
    let news_score := pyMin ((n : ℚ) / 10) 1
    some {
      stock_code := code
      news_count := n
      avg_sentiment := avg_sentiment
      adjusted_sentiment := adjusted
      avg_overall := avg_overall
      composite_score := adjusted * (35/100) + avg_overall * (35/100) +
        news_score * (15/100) + vol * (15/100)
      volume_signal := vol
      positive_count := sscores.countP fun x => decide (0 < x)
      negative_count := sscores.countP fun x => decide (x < 0)
      neutral_count := sscores.countP fun x => decide (x = 0)
      high_score_count := oscores.countP fun x => decide ((7/10 : ℚ) ≤ x)
      positive_ratio :=
        if 0 < n then (sscores.countP fun x => decide (0 < x) : ℕ) / (n : ℚ) else 0
    }

/-- The `buy_candidates` filter of `analyze_today_stocks` (optimized
thresholds of 2026-02-08: sentiment > 0.30, overall > 0.3, count ≥ 10,
positive ratio ≥ 0.8, and more positive than negative articles). -/
def isBuyCandidate (s : StockStat) : Bool :=
  decide ((3 : ℚ)/10 < s.avg_sentiment) && decide ((3 : ℚ)/10 < s.avg_overall) &&
  decide (10 ≤ s.news_count) && decide ((4 : ℚ)/5 ≤ s.positive_ratio) &&
  decide (s.negative_count < s.positive_count)

/-- `negative_ratio` as computed inline in `analyze_today_stocks`. -/
def negativeRatioOf (s : StockStat) : ℚ :=
  if 0 < s.news_count then (s.negative_count : ℚ) / s.news_count else 0

/-- The `sell_candidates` filter of `analyze_today_stocks`. -/
def isSellCandidate (s : StockStat) : Bool :=
  decide (s.avg_sentiment < -(1/4)) && decide (s.avg_overall < 1/4) &&
  decide (7 ≤ s.news_count) && decide ((7 : ℚ)/10 ≤ negativeRatioOf s)

/-- The `watch_candidates` filter of `analyze_today_stocks`. -/
def isWatchCandidate (s : StockStat) : Bool :=
  decide (5 ≤ s.news_count) && decide (-(1/10) ≤ s.avg_sentiment) &&
  decide (s.avg_sentiment ≤ 1/10) &&
  decide (0 < s.positive_count) && decide (0 < s.negative_count)

/-- The discrete signal kinds produced by `get_stock_signal`. -/
inductive SignalKind
  | buy
  | sell
  | hold
deriving DecidableEq, Repr

/-- `TradingAnalyzer.get_stock_signal`, applied to the date-filtered news
list of one stock: returns the signal kind and the confidence. -/
def get_stock_signal (filtered_news : List Article) : SignalKind × ℚ :=
  if filtered_news.isEmpty then (SignalKind.hold, 0)
  else
    let ss := sentimentScoresOf filtered_news
    let os := overallScoresOf filtered_news
    let avg_sentiment := avgOf ss
    let avg_overall := avgOf os
    let positive_count := ss.countP fun x => decide (0 < x)
    let negative_count := ss.countP fun x => decide (x < 0)
    let n := filtered_news.length
    let pos_ratio := if 0 < n then (positive_count : ℚ) / n else 0
    let neg_ratio := if 0 < n then (negative_count : ℚ) / n else 0
    if 3/10 < avg_sentiment ∧ 3/10 < avg_overall ∧ 10 ≤ n ∧ 4/5 ≤ pos_ratio then
      (SignalKind.buy, pyMin (1/2 + avg_sentiment * (3/10) + avg_overall * (2/10)) 1)
    else if avg_sentiment < -(1/4) ∧ avg_overall < 1/4 ∧ 7 ≤ n ∧ 7/10 ≤ neg_ratio then
      (SignalKind.sell, pyMin (1/2 + |avg_sentiment| * (3/10) + (1 - avg_overall) * (2/10)) 1)
    else (SignalKind.hold, 3/10)

/-! ### Backtest / threshold-optimization engine (`scripts/optimize_thresholds.py`) -/

/-- The news list collected for one stock by `analyze_stocks_for_date`
(which, unlike `analyze_today_stocks`, only counts valid 6-digit codes). -/
def validArticlesFor (arts : List Article) (code : String) : List Article :=
  arts.flatMap fun a => List.replicate ((a.relatedStocks.filter validCode).count code) a

/-- One entry of the per-date stock statistics of `analyze_stocks_for_date`. -/
structure OptStat where
  stock_code : String
  news_count : ℕ
  avg_sentiment : ℚ
  avg_overall : ℚ
  positive_count : ℕ
  negative_count : ℕ
  positive_ratio : ℚ
  negative_ratio : ℚ
deriving DecidableEq, Repr

/-- The per-stock body of `analyze_stocks_for_date` in
`optimize_thresholds.py` (and its copy in `validate_signals.py`). -/
def analyze_stocks_for_date_stat (arts : List Article) (code : String) :
    Option OptStat :=
  let mine := validArticlesFor arts code
  let n := mine.length
  if n = 0 then none
  else
    let ss := sentimentScoresOf mine
    some {
      stock_code := code
      news_count := n
      avg_sentiment := avgOf ss
      avg_overall := avgOf (overallScoresOf mine)
      positive_count := ss.countP fun x => decide (0 < x)
      negative_count := ss.countP fun x => decide (x < 0)
      positive_ratio :=
        if 0 < n then (ss.countP fun x => decide (0 < x) : ℕ) / (n : ℚ) else 0
      negative_ratio :=
        if 0 < n then (ss.countP fun x => decide (x < 0) : ℕ) / (n : ℚ) else 0
    }

/-- `HOLDING_DAYS = [1, 3, 5, 7, 10]`. -/
def HOLDING_DAYS : List ℕ := [1, 3, 5, 7, 10]

/-- `max(HOLDING_DAYS)` — the trailing-day exclusion width. -/
def maxHoldingDays : ℕ := HOLDING_DAYS.foldl max 0

/-- The signal-window restriction in `main`: when the window has more than
`max(HOLDING_DAYS)` trading days, drop the last `max_hold` dates from the
signal-generation set; otherwise keep every date. -/
def signal_dates (all_dates : List ℕ) : List ℕ :=
  if maxHoldingDays < all_dates.length then
    let cutoff_dates := all_dates.drop (all_dates.length - maxHoldingDays)
    all_dates.filter fun d => decide (d ∉ cutoff_dates)
  else all_dates

/-- One daily price bar (`시가` = open, `종가` = close). -/
structure PriceBar where
  date : ℕ
  openPrice : ℚ
  closePrice : ℚ
deriving DecidableEq, Repr, Inhabited

/-- The all-`None` result dict of `get_returns`. -/
def noneReturns : List (ℕ × Option ℚ) := HOLDING_DAYS.map fun d => (d, none)

/-- `get_returns`: forward returns from the price cache.  `df` is the cached
frame (`none` when the fetch failed), modelled as date-normalized bars sorted
ascending (the source normalizes and sorts before indexing).  Entry is the
open of the first bar strictly after the signal date; exit for holding `hd`
is the close of the `hd`-th such bar. -/
def get_returns (df : Option (List PriceBar)) (signal_date : ℕ) :
    List (ℕ × Option ℚ) :=
  match df with
  | none => noneReturns
  | some bars =>
    if bars.isEmpty then noneReturns
    else
      let future_days := bars.filter fun b => decide (signal_date < b.date)
      if future_days.isEmpty then noneReturns
      else
        let entry_price := (future_days.headD default).openPrice
        if entry_price ≤ 0 then noneReturns
        else
          HOLDING_DAYS.map fun hd =>
            (hd,
              if hd ≤ future_days.length then
                let exit_price := (future_days.getD (hd - 1) default).closePrice
                if 0 < exit_price then
                  some ((exit_price - entry_price) / entry_price)
                else none
              else none)

/-- Python's float update `if excess > best: best = excess`. -/
def pyMax (a b : ℚ) : ℚ := if a < b then b else a

/-- Per-holding-day statistics of one threshold combination. -/
structure HdStat where
  n : ℕ
  avg : ℚ
  hit_rate : ℚ
  excess : ℚ
deriving DecidableEq, Repr

/-- `returns_map`: the precomputed `(date, stock_code) → {hd: return}` dict. -/
abbrev ReturnsMap := List ((ℕ × String) × List (ℕ × Option ℚ))

/-- `daily_stats`: the `{date: [stock_stat, …]}` dict (signal window). -/
abbrev DailyStats := List (ℕ × List OptStat)

/-- The BUY selection predicate of one grid combination in
`grid_search_buy`. -/
def buy_select (sent_th overall_th : ℚ) (count_th : ℕ) (ratio_th : ℚ)
    (s : OptStat) : Bool :=
  decide (sent_th < s.avg_sentiment) && decide (overall_th < s.avg_overall) &&
  decide (count_th ≤ s.news_count) && decide (ratio_th ≤ s.positive_ratio) &&
  decide (s.negative_count < s.positive_count)

/-- The SELL selection predicate of one grid combination in
`grid_search_sell`. -/
def sell_select (sent_th overall_th : ℚ) (count_th : ℕ) (neg_ratio_th : ℚ)
    (s : OptStat) : Bool :=
  decide (s.avg_sentiment < sent_th) && decide (s.avg_overall < overall_th) &&
  decide (count_th ≤ s.news_count) && decide (neg_ratio_th ≤ s.negative_ratio) &&
  decide (s.positive_count < s.negative_count)

/-- The nested selection loop shared by both grid searches: for every
(date, stock) satisfying the predicate, keep its returns dict when present
and non-empty (`if ret:`). -/
def selected_returns (pred : OptStat → Bool) (daily_stats : DailyStats)
    (returns_map : ReturnsMap) : List (List (ℕ × Option ℚ)) :=
  daily_stats.flatMap fun ds =>
    ds.2.filterMap fun s =>
      if pred s then
        match returns_map.lookup (ds.1, s.stock_code) with
        | some r => if r.isEmpty then none else some r
        | none => none
      else none

/-- `[r[hd] for r in selected if r.get(hd) is not None]`. -/
def hd_returns (selected : List (List (ℕ × Option ℚ))) (hd : ℕ) : List ℚ :=
  selected.filterMap fun r =>
    match r.lookup hd with
    | some (some v) => some v
    | _ => none

/-- `benchmark_returns.get(hd, 0)`. -/
def benchGet (benchmark : List (ℕ × ℚ)) (hd : ℕ) : ℚ :=
  (benchmark.lookup hd).getD 0

/-- The per-holding-day stats dict of one BUY combination:
hit = positive return, excess = combination mean minus benchmark mean. -/
def buy_stats (selected : List (List (ℕ × Option ℚ))) (benchmark : List (ℕ × ℚ)) :
    List (ℕ × HdStat) :=
  HOLDING_DAYS.filterMap fun hd =>
    let rets := hd_returns selected hd
    if rets.isEmpty then none
    else
      let avg_ret := rets.sum / rets.length
      some (hd,
        { n := rets.length
          avg := avg_ret
          hit_rate := (rets.countP fun r => decide (0 < r) : ℕ) / (rets.length : ℚ)
          excess := avg_ret - benchGet benchmark hd })

/-- The per-holding-day stats dict of one SELL combination: hit = negative
return, and the excess is written as benchmark mean minus combination mean
(`벤치마크 수익 - SELL 종목 수익`). -/
def sell_stats (selected : List (List (ℕ × Option ℚ))) (benchmark : List (ℕ × ℚ)) :
    List (ℕ × HdStat) :=
  HOLDING_DAYS.filterMap fun hd =>
    let rets := hd_returns selected hd
    if rets.isEmpty then none
    else
      let avg_ret := rets.sum / rets.length
      some (hd,
        { n := rets.length
          avg := avg_ret
          hit_rate := (rets.countP fun r => decide (r < 0) : ℕ) / (rets.length : ℚ)
          excess := benchGet benchmark hd - avg_ret })

/-- The running `best_excess` maximum over a combination's stats. -/
def bestExcessOf (stats : List (ℕ × HdStat)) : ℚ :=
  stats.foldl (fun b s => pyMax b s.2.excess) (-999)

/-- The record appended to `results` for one threshold combination. -/
structure ComboResult where
  sentiment : ℚ
  overall : ℚ
  count : ℕ
  ratio : ℚ
  stats : List (ℕ × HdStat)
  best_excess : ℚ
  n : ℕ
deriving DecidableEq, Repr

/-- The body of the combination loop of `grid_search_buy` for a single
threshold tuple: `none` models `continue` (fewer than 10 selected samples,
or no holding period with data). -/
def eval_buy_combo (sent_th overall_th : ℚ) (count_th : ℕ) (ratio_th : ℚ)
    (daily_stats : DailyStats) (returns_map : ReturnsMap)
    (benchmark : List (ℕ × ℚ)) : Option ComboResult :=
  let selected := selected_returns (buy_select sent_th overall_th count_th ratio_th)
    daily_stats returns_map
  if selected.length < 10 then none
  else
    let stats := buy_stats selected benchmark
    if stats.isEmpty then none
    else some ⟨sent_th, overall_th, count_th, ratio_th, stats,
               bestExcessOf stats, selected.length⟩

/-- The body of the combination loop of `grid_search_sell` for a single
threshold tuple (minimum sample size 5). -/
def eval_sell_combo (sent_th overall_th : ℚ) (count_th : ℕ) (neg_ratio_th : ℚ)
    (daily_stats : DailyStats) (returns_map : ReturnsMap)
    (benchmark : List (ℕ × ℚ)) : Option ComboResult :=
  let selected := selected_returns (sell_select sent_th overall_th count_th neg_ratio_th)
    daily_stats returns_map
  if selected.length < 5 then none
  else
    let stats := sell_stats selected benchmark
    if stats.isEmpty then none
    else some ⟨sent_th, overall_th, count_th, neg_ratio_th, stats,
               bestExcessOf stats, selected.length⟩

/-- The returns of every stock mentioned in news on some day of the window,
signal or not, for one holding period — the population averaged by
`calc_benchmark`. -/
def allNewsReturns (daily_stats : DailyStats) (returns_map : ReturnsMap)
    (hd : ℕ) : List ℚ :=
  daily_stats.flatMap fun ds =>
    ds.2.filterMap fun s =>
      match returns_map.lookup (ds.1, s.stock_code) with
      | some r =>
        if r.isEmpty then none
        else
          match r.lookup hd with
          | some (some v) => some v
          | _ => none
      | none => none

/-- `calc_benchmark`: per holding period, the mean return of all stocks
mentioned in news (0 when no stock has data). -/
def calc_benchmark (daily_stats : DailyStats) (returns_map : ReturnsMap) :
    List (ℕ × ℚ) :=
  HOLDING_DAYS.map fun hd =>
    let all_rets := allNewsReturns daily_stats returns_map hd
    (hd, if all_rets.isEmpty then 0 else all_rets.sum / all_rets.length)

/-! ### Concrete fixtures used by witnesses and counterexamples -/

/-- The spec's classifier boundary example as a `StockStat`
(`avg_sentiment = 0.52`, `avg_overall = 0.50`, 10 news, 9 positive,
1 negative, ratio 0.9). -/
def exampleStat : StockStat :=
  ⟨"005930", 10, 13/25, 13/25, 1/2, 0, 0, 9, 1, 0, 0, 9/10⟩

/-- Ten articles for stock 005930: nine with sentiment `0.6` and one with
`-0.2`, overall `0.5` each — average sentiment `0.52`, ratio `0.9`. -/
def exampleNews : List Article :=
  List.replicate 9 ⟨some (3/5), some (1/2), ["005930"]⟩ ++
    [⟨some (-(1/5)), some (1/2), ["005930"]⟩]

/-- A single scored article for the aggregation fixtures. -/
def fixtureArticle : Article := ⟨some 1, some 1, ["000001"]⟩

/-- An article carrying no scores at all (both nullable fields absent). -/
def fixtureNullArticle : Article := ⟨none, none, ["000001"]⟩

/-- The aggregate of `[fixtureArticle]` alone. -/
def fixtureStat : StockStat := ⟨"000001", 1, 1, 1, 1, 143/200, 0, 1, 0, 0, 1, 1⟩

/-- The aggregate of `[fixtureArticle, fixtureNullArticle]`: the null-score
article raises `news_count` but leaves every average and count unchanged. -/
def fixtureStat2 : StockStat := ⟨"000001", 2, 1, 1, 1, 73/100, 0, 1, 0, 0, 1, 1/2⟩

/-- An evaluation window of exactly ten trading days. -/
def datesTen : List ℕ := [1, 2, 3, 4, 5, 6, 7, 8, 9, 10]

/-- An evaluation window of eleven trading days. -/
def datesEleven : List ℕ := [1, 2, 3, 4, 5, 6, 7, 8, 9, 10, 11]

/-- Three price bars; relative to signal date 10 the first future trading
day is date 11 (open 102). -/
def fixtureBars : List PriceBar :=
  [⟨10, 100, 101⟩, ⟨11, 102, 103⟩, ⟨12, 104, 105⟩]

/-- A returns dict with a `+10%` one-day return and no data beyond. -/
def c4PosReturns : List (ℕ × Option ℚ) :=
  [(1, some (1/10)), (3, none), (5, none), (7, none), (10, none)]

/-- A returns dict with a `-10%` one-day return and no data beyond. -/
def c4NegReturns : List (ℕ × Option ℚ) :=
  [(1, some (-(1/10))), (3, none), (5, none), (7, none), (10, none)]

/-- One trading day with five strongly negative stocks (sell candidates)
and five neutral stocks (benchmark only). -/
def c4DailyStats : DailyStats :=
  [(0, [⟨"000001", 3, -(1/2), 0, 0, 3, 0, 1⟩,
        ⟨"000002", 3, -(1/2), 0, 0, 3, 0, 1⟩,
        ⟨"000003", 3, -(1/2), 0, 0, 3, 0, 1⟩,
        ⟨"000004", 3, -(1/2), 0, 0, 3, 0, 1⟩,
        ⟨"000005", 3, -(1/2), 0, 0, 3, 0, 1⟩,
        ⟨"100001", 3, 0, 0, 0, 0, 0, 0⟩,
        ⟨"100002", 3, 0, 0, 0, 0, 0, 0⟩,
        ⟨"100003", 3, 0, 0, 0, 0, 0, 0⟩,
        ⟨"100004", 3, 0, 0, 0, 0, 0, 0⟩,
        ⟨"100005", 3, 0, 0, 0, 0, 0, 0⟩])]

/-- Returns for the fixture day: the sell candidates gain 10% in one day,
the neutral stocks lose 10%, so the benchmark one-day mean is 0. -/
def c4ReturnsMap : ReturnsMap :=
  [((0, "000001"), c4PosReturns), ((0, "000002"), c4PosReturns),
   ((0, "000003"), c4PosReturns), ((0, "000004"), c4PosReturns),
   ((0, "000005"), c4PosReturns), ((0, "100001"), c4NegReturns),
   ((0, "100002"), c4NegReturns), ((0, "100003"), c4NegReturns),
   ((0, "100004"), c4NegReturns), ((0, "100005"), c4NegReturns)]

/-- The evaluated sell combination on the fixture data: five samples, mean
one-day return `+10%`, reported excess `benchmark − mean = −10%`. -/
def c4SellResult : ComboResult :=
  ⟨-(1/20), 3/10, 3, 3/10, [(1, ⟨5, 1/10, 0, -(1/10)⟩)], -(1/10), 5⟩

/-! ### Proofs -/

lemma countKwAux_eq (text kw : Str) :
    ∀ (fuel start a b : ℕ),
      countKwAux text kw start fuel (a, b) =
        (a + ((occPosAux text kw start fuel).filter
                fun p => !check_negation text p).length,
         b + ((occPosAux text kw start fuel).filter
                fun p => check_negation text p).length) := by
  intro fuel
  induction fuel with
  | zero => intro start a b; simp [countKwAux, occPosAux]
  | succ n ih =>
    intro start a b
    rw [countKwAux, occPosAux]
    cases h : findFrom text kw start with
    | none => simp
    | some p =>
      by_cases hn : check_negation text p
      · simp only [hn, if_pos, List.filter_cons, Bool.not_true, ih]
        simp [hn]
        omega
      · simp only [hn, if_neg, List.filter_cons, ih]
        simp [hn]
        omega

lemma count_with_negation_eq (text : Str) (kws : List Str) :
    count_with_negation text kws = (normalHits text kws, negatedHits text kws) := by
  suffices h : ∀ (a b : ℕ),
      kws.foldl (fun acc kw => countKwAux text kw 0 (text.length + 1) acc) (a, b) =
        (a + normalHits text kws, b + negatedHits text kws) by
    simpa using h 0 0
  induction kws with
  | nil => intro a b; simp [normalHits, negatedHits]
  | cons kw rest ih =>
    intro a b
    simp only [List.foldl_cons, countKwAux_eq]
    rw [ih]
    simp [normalHits, negatedHits, occurrencesOf]
    omega

/-! ### Shared lemmas about the ratio, fallback and clamp stages -/


lemma ratioScore_eq_spec (p n : ℕ) : ratioScore p n = specRatioScore p n := by
  have h1 : (max 1 (p + 1)) = p + 1 := by omega
  have h2 : (max 1 (n + 1)) = n + 1 := by omega
  simp only [ratioScore, specRatioScore, h1, h2]
  push_cast
  rfl

lemma specRatioScore_bounds (p n : ℕ) :
    -1 ≤ specRatioScore p n ∧ specRatioScore p n ≤ 1 := by
  unfold specRatioScore
  split_ifs with h1 h2
  · constructor
    · have : min 1 ((n : ℚ) / (p + 1)) ≤ 1 := min_le_left _ _
      linarith
    · have : (0 : ℚ) ≤ min 1 ((n : ℚ) / (p + 1)) := by
        apply le_min
        · norm_num
        · positivity
      linarith
  · constructor
    · have : (0 : ℚ) ≤ min 1 ((p : ℚ) / (n + 1)) := by
        apply le_min
        · norm_num
        · positivity
      linarith
    · exact min_le_left _ _
  · norm_num

lemma specRatioScore_eq_zero_iff (p n : ℕ) : specRatioScore p n = 0 ↔ p = n := by
  unfold specRatioScore
  split_ifs with h1 h2
  · have hpos : 0 < min 1 ((n : ℚ) / (p + 1)) := by
      apply lt_min
      · norm_num
      · apply div_pos
        · have : 0 < n := by omega
          exact_mod_cast this
        · positivity
    constructor
    · intro h; exfalso; linarith
    · intro h; omega
  · have hpos : 0 < min 1 ((p : ℚ) / (n + 1)) := by
      apply lt_min
      · norm_num
      · apply div_pos
        · have : 0 < p := by omega
          exact_mod_cast this
        · positivity
    constructor
    · intro h; exfalso; linarith
    · intro h; omega
  · constructor
    · intro _; omega
    · intro _; rfl

lemma fallbackScore_ratio (p n : ℕ) :
    fallbackScore (specRatioScore p n) p n = specRatioScore p n := by
  unfold fallbackScore
  split_ifs with h0 h1 h2
  · exact absurd ((specRatioScore_eq_zero_iff p n).mp h0) (by omega)
  · exact absurd ((specRatioScore_eq_zero_iff p n).mp h0) (by omega)
  · rfl
  · rfl

lemma clamp_of_bounds {s : ℚ} (h1 : -1 ≤ s) (h2 : s ≤ 1) :
    max (-1) (min 1 s) = s := by
  rw [min_eq_right h2, max_eq_right h1]

/-- The whole pipeline, for any text, reduces to the ratio rule applied to
the effective counts: the fallback and the clamp never alter the value. -/
lemma sentiment_score_eq_ratio (t : Str) :
    calculate_sentiment_score t =
      specRatioScore (sentimentCounts t).1 (sentimentCounts t).2 := by
  unfold calculate_sentiment_score
  by_cases ht : t.isEmpty
  · rw [if_pos ht]
    have ht' : t = [] := List.isEmpty_iff.mp ht
    subst ht'
    have hc : sentimentCounts [] = (0, 0) := by decide
    rw [hc]
    rfl
  · rw [if_neg ht]
    dsimp only
    rw [ratioScore_eq_spec, fallbackScore_ratio]
    exact clamp_of_bounds (specRatioScore_bounds _ _).1 (specRatioScore_bounds _ _).2

/-! ### Claims about the sentiment scorer -/

/-- C1: for every input text, `calculate_sentiment_score` returns a value in
`[-1, 1]`; the empty text returns exactly `0.0`; and the result follows the
ratio rule: with `pos`/`neg` the effective counts (direct hits +
negation-inverted hits of the opposite lexicon + compound score), the score
is `−min(1, neg/(pos+1))` when `neg > pos`, `min(1, pos/(neg+1))` when
`pos > neg`, and `0` when `pos = neg`. -/
theorem claim_C1_sentiment_range_and_ratio (t : Str) :
    (-1 ≤ calculate_sentiment_score t ∧ calculate_sentiment_score t ≤ 1) ∧
    calculate_sentiment_score [] = 0 ∧
    calculate_sentiment_score t =
      specRatioScore (sentimentCounts t).1 (sentimentCounts t).2 := by
  refine ⟨?_, rfl, sentiment_score_eq_ratio t⟩
  rw [sentiment_score_eq_ratio]
  exact specRatioScore_bounds _ _

/-- C10: a text whose counting stage yields at least one positive and zero
negative contributions scores exactly `1`, and symmetrically exactly `-1`;
a zero ratio result forces equal counts, so the `±0.5` fallback branch never
alters the ratio result. -/
theorem claim_C10_saturation_and_dead_fallback (t : Str) :
    (1 ≤ (sentimentCounts t).1 ∧ (sentimentCounts t).2 = 0 →
      calculate_sentiment_score t = 1) ∧
    (1 ≤ (sentimentCounts t).2 ∧ (sentimentCounts t).1 = 0 →
      calculate_sentiment_score t = -1) ∧
    (∀ p n : ℕ, specRatioScore p n = 0 → p = n) ∧
    fallbackScore (ratioScore (sentimentCounts t).1 (sentimentCounts t).2)
        (sentimentCounts t).1 (sentimentCounts t).2 =
      ratioScore (sentimentCounts t).1 (sentimentCounts t).2 := by
  refine ⟨?_, ?_, fun p n h => (specRatioScore_eq_zero_iff p n).mp h, ?_⟩
  · rintro ⟨h1, h2⟩
    rw [sentiment_score_eq_ratio]
    unfold specRatioScore
    rw [if_neg (by omega), if_pos (by omega)]
    rw [h2]
    push_cast
    rw [zero_add, div_one]
    exact min_eq_left (by exact_mod_cast h1)
  · rintro ⟨h1, h2⟩
    rw [sentiment_score_eq_ratio]
    unfold specRatioScore
    rw [if_pos (by omega)]
    rw [h2]
    push_cast
    rw [zero_add, div_one]
    rw [min_eq_left (by exact_mod_cast h1)]
  · rw [ratioScore_eq_spec]
    exact fallbackScore_ratio _ _

/-- Witness for C10: the text `상승` has one positive and no negative
contribution and scores exactly `1`; the text `하락` is symmetric. -/
theorem claim_C10_witness :
    calculate_sentiment_score "상승".toList = 1 ∧
    calculate_sentiment_score "하락".toList = -1 :=
  ⟨(claim_C10_saturation_and_dead_fallback "상승".toList).1 (by decide),
   (claim_C10_saturation_and_dead_fallback "하락".toList).2.1 (by decide)⟩

/-- C5: the text `하락 우려 해소` matches a positive compound expression while
embedding the negative-lexicon keyword `하락`; the matched span is removed
before keyword counting (the negative keywords then hit zero times instead
of twice), the compound polarity lands on the positive side, and the overall
score is positive. -/
theorem claim_C5_compound_override :
    ("하락 우려 해소".toList, (1 : ℤ)) ∈ COMPOUND_EXPRESSIONS ∧
    "하락".toList ∈ NEGATIVE_KEYWORDS ∧
    containsSub (lowerStr "하락 우려 해소".toList) "하락".toList = true ∧
    count_with_negation (lowerStr "하락 우려 해소".toList) NEGATIVE_KEYWORDS = (2, 0) ∧
    textForKeywords (lowerStr "하락 우려 해소".toList) = [' '] ∧
    count_with_negation (textForKeywords (lowerStr "하락 우려 해소".toList))
        NEGATIVE_KEYWORDS = (0, 0) ∧
    sentimentCounts "하락 우려 해소".toList = (2, 0) ∧
    calculate_sentiment_score "하락 우려 해소".toList = 1 := by
  refine ⟨by decide, by decide, by decide, by decide, by decide, by decide, by decide, ?_⟩
  rw [sentiment_score_eq_ratio]
  have h : sentimentCounts "하락 우려 해소".toList = (2, 0) := by decide
  rw [h]
  show specRatioScore 2 0 = 1
  unfold specRatioScore
  norm_num

/-- C6: the counting loop of `_count_with_negation` counts every keyword
occurrence either normally or as negation-inverted according to
`check_negation`; the effective positive count is the sum of direct positive
hits and inverted negative hits (symmetrically for the negative count); and
`check_negation` looks for a negation marker among exactly the last
`NEGATION_WINDOW = 2` whitespace-separated words preceding the occurrence. -/
theorem claim_C6_negation_window_inversion (t : Str) :
    count_with_negation (textForKeywords (lowerStr t)) POSITIVE_KEYWORDS =
      (normalHits (textForKeywords (lowerStr t)) POSITIVE_KEYWORDS,
       negatedHits (textForKeywords (lowerStr t)) POSITIVE_KEYWORDS) ∧
    (sentimentCounts t).1 =
      normalHits (textForKeywords (lowerStr t)) POSITIVE_KEYWORDS +
        negatedHits (textForKeywords (lowerStr t)) NEGATIVE_KEYWORDS +
        (if 0 < compoundScore (lowerStr t) then (compoundScore (lowerStr t)).natAbs else 0) ∧
    (sentimentCounts t).2 =
      normalHits (textForKeywords (lowerStr t)) NEGATIVE_KEYWORDS +
        negatedHits (textForKeywords (lowerStr t)) POSITIVE_KEYWORDS +
        (if compoundScore (lowerStr t) < 0 then (compoundScore (lowerStr t)).natAbs else 0) ∧
    NEGATION_WINDOW = 2 ∧
    (∀ text : Str, ∀ p : ℕ, check_negation text p = true ↔
      ∃ w ∈ (splitWS (text.take p)).drop ((splitWS (text.take p)).length - NEGATION_WINDOW),
        ∃ nw ∈ NEGATION_WORDS, containsSub w nw = true) := by
  refine ⟨count_with_negation_eq _ _, ?_, ?_, rfl, ?_⟩
  · unfold sentimentCounts
    dsimp only
    rw [count_with_negation_eq, count_with_negation_eq]
  · unfold sentimentCounts
    dsimp only
    rw [count_with_negation_eq, count_with_negation_eq]
  · intro text p
    unfold check_negation
    dsimp only
    simp [List.any_eq_true]


lemma countP_signs_le (xs : List ℚ) :
    (xs.countP fun x => decide (0 < x)) + (xs.countP fun x => decide (x < 0)) ≤
      xs.length := by
  induction xs with
  | nil => simp
  | cons a l ih =>
    simp only [List.countP_cons, List.length_cons]
    by_cases h1 : (0 : ℚ) < a
    · have h2 : ¬a < 0 := by linarith
      rw [if_pos (decide_eq_true h1), if_neg (by simp [h2])]
      omega
    · rw [if_neg (by simp [h1])]
      by_cases h2 : a < 0
      · rw [if_pos (decide_eq_true h2)]
        omega
      · rw [if_neg (by simp [h2])]
        omega

lemma lookup_pair_map {α : Type _} (f : ℕ → α) (l : List ℕ) (hd : ℕ) (h : hd ∈ l) :
    (l.map fun d => (d, f d)).lookup hd = some (f hd) := by
  induction l with
  | nil => cases h
  | cons a t ih =>
    by_cases he : hd = a
    · subst he
      simp [List.lookup]
    · have hb : (hd == a) = false := beq_eq_false_iff_ne.mpr he
      have hmem : hd ∈ t := by
        cases h with
        | head => exact absurd rfl he
        | tail _ hm => exact hm
      simp [List.lookup, hb, ih hmem]

lemma filterMap_replicate_none {α β : Type _} (f : α → Option β) (a : α)
    (hf : f a = none) (k : ℕ) :
    (List.replicate k a).filterMap f = [] := by
  induction k with
  | zero => rfl
  | succ n ih => simp [List.replicate_succ, List.filterMap_cons, hf, ih]

lemma articlesFor_append (arts : List Article) (a : Article) (code : String) :
    articlesFor (arts ++ [a]) code =
      articlesFor arts code ++ List.replicate (a.relatedStocks.count code) a := by
  unfold articlesFor
  rw [List.flatMap_append]
  simp

/-- C2: the buy classifier fires exactly on the five stated conditions; in
`get_stock_signal`, whose buy branch does not test
`positive_count > negative_count` explicitly, the condition is nevertheless
equivalent because `positive_ratio ≥ 0.8` with at least 10 news forces more
positive than negative articles.  The spec's boundary example is
classified buy by both classifiers. -/
theorem claim_C2_buy_classification :
    (∀ s : StockStat, isBuyCandidate s = true ↔
      ((3 : ℚ)/10 < s.avg_sentiment ∧ (3 : ℚ)/10 < s.avg_overall ∧
        10 ≤ s.news_count ∧ (4 : ℚ)/5 ≤ s.positive_ratio ∧
        s.negative_count < s.positive_count)) ∧
    (∀ l : List Article,
      (get_stock_signal l).1 = SignalKind.buy ↔
        ((3 : ℚ)/10 < avgOf (sentimentScoresOf l) ∧
          (3 : ℚ)/10 < avgOf (overallScoresOf l) ∧ 10 ≤ l.length ∧
          (4 : ℚ)/5 ≤ ((sentimentScoresOf l).countP fun x => decide (0 < x) : ℕ) /
            (l.length : ℚ) ∧
          ((sentimentScoresOf l).countP fun x => decide (x < 0)) <
            ((sentimentScoresOf l).countP fun x => decide (0 < x)))) ∧
    isBuyCandidate exampleStat = true ∧
    (get_stock_signal exampleNews).1 = SignalKind.buy := by
  refine ⟨?_, ?_, by with_unfolding_all decide, by with_unfolding_all decide⟩
  · intro s
    simp only [isBuyCandidate, Bool.and_eq_true, decide_eq_true_eq, and_assoc]
  · intro l
    constructor
    · intro h
      by_cases he : l.isEmpty
      · rw [get_stock_signal, if_pos he] at h
        simp at h
      · have hn : 0 < l.length := by
          rcases l with _ | ⟨x, xs⟩
          · simp at he
          · simp
        rw [get_stock_signal, if_neg he] at h
        dsimp only at h
        rw [if_pos hn] at h
        split_ifs at h with h1 h2
        · obtain ⟨ha, hb, hc, hd⟩ := h1
          refine ⟨ha, hb, hc, hd, ?_⟩
          have hple := countP_signs_le (sentimentScoresOf l)
          have hlen : (sentimentScoresOf l).length ≤ l.length :=
            List.length_filterMap_le _ _
          have h45 : 4 * l.length ≤
              5 * ((sentimentScoresOf l).countP fun x => decide (0 < x)) := by
            have hq : (4 : ℚ) * l.length ≤
                5 * (((sentimentScoresOf l).countP fun x => decide (0 < x) : ℕ) : ℚ) := by
              rw [div_le_div_iff (by norm_num) (by exact_mod_cast hn)] at hd
              linarith
            exact_mod_cast hq
          omega
    · rintro ⟨ha, hb, hc, hd, _⟩
      have hn : 0 < l.length := by omega
      have hne : ¬l.isEmpty = true := by
        simp only [List.isEmpty_iff]
        intro hnil
        rw [hnil] at hn
        simp at hn
      rw [get_stock_signal, if_neg hne]
      dsimp only
      rw [if_pos hn, if_pos ⟨ha, hb, hc, hd⟩]

/-- C8: the price-reaction adjuster returns the sentiment unchanged when the
price history is absent or has fewer than 2 bars; otherwise, with `r` the
lookback return, it damps by ×0.3 when the move is already reflected
(positive sentiment with r > +3%, negative with r < −3%), boosts by ×1.5
when it runs counter to the move (positive with r < −1%, negative with
r > +1%), and otherwise leaves the sentiment unchanged; `0.6` with `r = +5%`
gives exactly `0.18`. -/
theorem claim_C8_price_reaction_adjustment :
    (∀ (s : ℚ) (days : ℕ), adjust_for_price_reaction s none days = s) ∧
    (∀ (s : ℚ) (cs : List ℚ) (days : ℕ), cs.length < 2 →
      adjust_for_price_reaction s (some cs) days = s) ∧
    (∀ (s : ℚ) (cs : List ℚ) (days : ℕ) (r : ℚ), 2 ≤ cs.length →
      0 < cs.getD (min days (cs.length - 1)) 0 →
      r = (cs.headD 0 - cs.getD (min days (cs.length - 1)) 0) /
            cs.getD (min days (cs.length - 1)) 0 →
      adjust_for_price_reaction s (some cs) days =
        (if (0 < s ∧ 3/100 < r) ∨ (s < 0 ∧ r < -(3/100)) then s * (3/10)
         else if (0 < s ∧ r < -(1/100)) ∨ (s < 0 ∧ 1/100 < r) then s * (3/2)
         else s)) ∧
    adjust_for_price_reaction (3/5) (some [105, 104, 103, 100]) 3 = 9/50 := by
  refine ⟨?_, ?_, ?_, by with_unfolding_all decide⟩
  · intro s days
    simp only [adjust_for_price_reaction]
    split_ifs with hs
    · exact hs.symm
    · rfl
  · intro s cs days hlen
    simp only [adjust_for_price_reaction]
    by_cases hs : s = 0
    · rw [if_pos hs]
      exact hs.symm
    · rw [if_neg hs, if_pos hlen]
  · intro s cs days r hlen hprior hr
    simp only [adjust_for_price_reaction]
    by_cases hs : s = 0
    · rw [if_pos hs]
      subst hs
      rw [if_neg (by rintro (⟨h, _⟩ | ⟨h, _⟩) <;> exact absurd h (lt_irrefl 0)),
        if_neg (by rintro (⟨h, _⟩ | ⟨h, _⟩) <;> exact absurd h (lt_irrefl 0))]
    · rw [if_neg hs, if_neg (by omega)]
      rw [if_neg (not_le.mpr hprior)]
      rw [← hr]
      by_cases c1 : 0 < s ∧ 3/100 < r
      · rw [if_pos c1, if_pos (Or.inl c1)]
      · rw [if_neg c1]
        by_cases c2 : s < 0 ∧ r < -(3/100)
        · rw [if_pos c2, if_pos (Or.inr c2)]
        · rw [if_neg c2, if_neg (not_or.mpr ⟨c1, c2⟩)]
          by_cases c3 : 0 < s ∧ r < -(1/100)
          · rw [if_pos c3, if_pos (Or.inl c3)]
          · rw [if_neg c3]
            by_cases c4 : s < 0 ∧ 1/100 < r
            · rw [if_pos c4, if_pos (Or.inr c4)]
            · rw [if_neg c4, if_neg (not_or.mpr ⟨c3, c4⟩)]

/-- Witness for C8: a one-bar history is returned unchanged, and the spec's
`0.6` with `+5%` lookback example yields `0.18` through the stated case. -/
theorem claim_C8_witness :
    adjust_for_price_reaction (3/5) (some [100]) 3 = 3/5 ∧
    adjust_for_price_reaction (3/5) (some [105, 104, 103, 100]) 3 = 9/50 := by
  constructor
  · exact claim_C8_price_reaction_adjustment.2.1 (3/5) [100] 3 (by norm_num)
  · have h := claim_C8_price_reaction_adjustment.2.2.1 (3/5) [105, 104, 103, 100] 3
      (1/20) (by norm_num) (by with_unfolding_all decide) (by with_unfolding_all decide)
    rw [h]
    norm_num

/-- C9 (amended): the per-stock aggregate depends on the class-level volume
cache only through its state after `_load_volume_cache`; two runs whose
cache states agree after loading produce identical aggregates.  (The
unamended claim — identical output regardless of earlier cache state — is
refuted by `claim_C9_counterexample`.) -/
theorem claim_C9_amended_cache_determinism (arts : List Article) (code : String)
    (closes : Option (List ℚ)) (st1 st2 : VolumeCache) (rows : List VolumeRow)
    (h : load_volume_cache st1 rows = load_volume_cache st2 rows) :
    stock_stat_for arts code closes st1 rows =
      stock_stat_for arts code closes st2 rows := by
  unfold stock_stat_for
  rw [h]

/-- Counterexample to C9 as stated: identical articles, prices and volume
query rows, but a different cache state left behind by an earlier run
(`_volume_cache_loaded = True` with different cached averages) produce
different aggregates. -/
theorem claim_C9_counterexample :
    stock_stat_for [⟨some 1, some (1/2), ["000001"]⟩] "000001" none
        ⟨true, [("000001", 1)]⟩ [] ≠
      stock_stat_for [⟨some 1, some (1/2), ["000001"]⟩] "000001" none
        ⟨true, [("000001", 10)]⟩ [] := by with_unfolding_all decide

/-- Witness for the amended C9: an unloaded cache and its loaded counterpart
agree after loading, hence produce the same aggregate. -/
theorem claim_C9_amended_witness :
    stock_stat_for [fixtureArticle] "000001" none ⟨false, [("000001", 7)]⟩ [] =
      stock_stat_for [fixtureArticle] "000001" none ⟨true, [("000001", 7)]⟩ [] :=
  claim_C9_amended_cache_determinism _ _ _ _ _ _ (by with_unfolding_all decide)

lemma sentimentScoresOf_append_null (mine : List Article) (a : Article) (k : ℕ)
    (hf : a.sentiment = none) :
    sentimentScoresOf (mine ++ List.replicate k a) = sentimentScoresOf mine := by
  unfold sentimentScoresOf
  rw [List.filterMap_append, filterMap_replicate_none _ _ hf, List.append_nil]

lemma overallScoresOf_append_null (mine : List Article) (a : Article) (k : ℕ)
    (hf : a.overall = none) :
    overallScoresOf (mine ++ List.replicate k a) = overallScoresOf mine := by
  unfold overallScoresOf
  rw [List.filterMap_append, filterMap_replicate_none _ _ hf, List.append_nil]

/-- C7: each (stock, date) aggregate averages only the non-null scores
(null scores are excluded from numerator and denominator alike, never
treated as 0), counts strictly positive / strictly negative scores, and sets
`positive_ratio = positive_count / news_count`; appending an article with
null scores raises `news_count` but leaves the averages and sign counts
unchanged.  The same holds for the backtest-side aggregation
`analyze_stocks_for_date`. -/
theorem claim_C7_aggregate_statistics (arts : List Article) (code : String)
    (closes : Option (List ℚ)) (st : VolumeCache) (rows : List VolumeRow)
    (s : StockStat) (h : stock_stat_for arts code closes st rows = some s) :
    s.news_count = (articlesFor arts code).length ∧
    (sentimentScoresOf (articlesFor arts code) ≠ [] →
      s.avg_sentiment = (sentimentScoresOf (articlesFor arts code)).sum /
        ((sentimentScoresOf (articlesFor arts code)).length : ℚ)) ∧
    (overallScoresOf (articlesFor arts code) ≠ [] →
      s.avg_overall = (overallScoresOf (articlesFor arts code)).sum /
        ((overallScoresOf (articlesFor arts code)).length : ℚ)) ∧
    s.positive_count =
      (sentimentScoresOf (articlesFor arts code)).countP (fun x => decide (0 < x)) ∧
    s.negative_count =
      (sentimentScoresOf (articlesFor arts code)).countP (fun x => decide (x < 0)) ∧
    s.positive_ratio = (s.positive_count : ℚ) / (s.news_count : ℚ) ∧
    (∀ a : Article, a.sentiment = none → a.overall = none →
      ∀ s2 : StockStat,
        stock_stat_for (arts ++ [a]) code closes st rows = some s2 →
        s2.news_count = s.news_count + a.relatedStocks.count code ∧
        s2.avg_sentiment = s.avg_sentiment ∧
        s2.avg_overall = s.avg_overall ∧
        s2.positive_count = s.positive_count ∧
        s2.negative_count = s.negative_count) ∧
    (∀ s3 : OptStat, analyze_stocks_for_date_stat arts code = some s3 →
      s3.positive_ratio = (s3.positive_count : ℚ) / (s3.news_count : ℚ) ∧
      s3.negative_ratio = (s3.negative_count : ℚ) / (s3.news_count : ℚ) ∧
      (sentimentScoresOf (validArticlesFor arts code) ≠ [] →
        s3.avg_sentiment = (sentimentScoresOf (validArticlesFor arts code)).sum /
          ((sentimentScoresOf (validArticlesFor arts code)).length : ℚ)) ∧
      s3.positive_count =
        (sentimentScoresOf (validArticlesFor arts code)).countP
          (fun x => decide (0 < x)) ∧
      s3.negative_count =
        (sentimentScoresOf (validArticlesFor arts code)).countP
          (fun x => decide (x < 0))) := by
  simp only [stock_stat_for] at h
  by_cases h0 : (articlesFor arts code).length = 0
  · rw [if_pos h0] at h
    exact absurd h (by simp)
  · rw [if_neg h0] at h
    injection h with hr
    subst hr
    refine ⟨rfl, ?_, ?_, rfl, rfl, ?_, ?_, ?_⟩
    · intro hne
      show avgOf (sentimentScoresOf (articlesFor arts code)) = _
      rw [avgOf, if_neg (by simpa [List.isEmpty_iff] using hne)]
    · intro hne
      show avgOf (overallScoresOf (articlesFor arts code)) = _
      rw [avgOf, if_neg (by simpa [List.isEmpty_iff] using hne)]
    · show (if 0 < (articlesFor arts code).length then _ else _) = _
      rw [if_pos (by omega)]
    · intro a ha1 ha2 s2 h2
      simp only [stock_stat_for] at h2
      rw [articlesFor_append,
        sentimentScoresOf_append_null _ _ _ ha1,
        overallScoresOf_append_null _ _ _ ha2,
        List.length_append, List.length_replicate] at h2
      rw [if_neg (by omega)] at h2
      injection h2 with hr2
      subst hr2
      exact ⟨rfl, rfl, rfl, rfl, rfl⟩
    · intro s3 h3
      simp only [analyze_stocks_for_date_stat] at h3
      by_cases h4 : (validArticlesFor arts code).length = 0
      · rw [if_pos h4] at h3
        exact absurd h3 (by simp)
      · rw [if_neg h4] at h3
        injection h3 with hr3
        subst hr3
        refine ⟨?_, ?_, ?_, rfl, rfl⟩
        · show (if 0 < (validArticlesFor arts code).length then _ else _) = _
          rw [if_pos (by omega)]
        · show (if 0 < (validArticlesFor arts code).length then _ else _) = _
          rw [if_pos (by omega)]
        · intro hne
          show avgOf (sentimentScoresOf (validArticlesFor arts code)) = _
          rw [avgOf, if_neg (by simpa [List.isEmpty_iff] using hne)]

/-- Witness for C7: a single scored article plus a null-score article —
`news_count` grows from 1 to 2 while the average sentiment, the sign counts
and hence the numerator of the ratio stay put. -/
theorem claim_C7_witness :
    fixtureStat2.news_count = fixtureStat.news_count + 1 ∧
    fixtureStat2.avg_sentiment = fixtureStat.avg_sentiment ∧
    fixtureStat2.positive_count = fixtureStat.positive_count ∧
    fixtureStat.positive_ratio =
      (fixtureStat.positive_count : ℚ) / (fixtureStat.news_count : ℚ) := by
  have hmain := claim_C7_aggregate_statistics [fixtureArticle] "000001" none
    ⟨true, []⟩ [] fixtureStat (by with_unfolding_all decide)
  have happ := hmain.2.2.2.2.2.2.1 fixtureNullArticle rfl rfl fixtureStat2
    (by with_unfolding_all decide)
  refine ⟨?_, happ.2.1, happ.2.2.2.1, hmain.2.2.2.2.2.1⟩
  have hc : fixtureNullArticle.relatedStocks.count "000001" = 1 := by decide
  rw [happ.1, hc]

lemma filter_not_mem_of_disjoint (l1 l2 : List ℕ) (hdisj : List.Disjoint l1 l2) :
    (l1 ++ l2).filter (fun d => decide (d ∉ l2)) = l1 := by
  rw [List.filter_append]
  have h1 : l1.filter (fun d => decide (d ∉ l2)) = l1 :=
    List.filter_eq_self.mpr fun a ha => by
      simpa using fun hin => hdisj ha hin
  have h2 : l2.filter (fun d => decide (d ∉ l2)) = [] :=
    List.filter_eq_nil_iff.mpr fun a ha => by simpa using ha
  rw [h1, h2, List.append_nil]

/-- Counterexample to C3 as stated: in an evaluation window of exactly ten
trading days none of the last ten days is excluded — the signal-generation
set keeps the whole window, including its final day. -/
theorem claim_C3_counterexample :
    datesTen.length = 10 ∧
    signal_dates datesTen = datesTen ∧
    (10 : ℕ) ∈ signal_dates datesTen := by decide

/-- C3 (amended): when the evaluation window has more than
`max(HOLDING_DAYS) = 10` trading days, the signal-generation set is exactly
the window minus its last ten days (so each of the last ten days is
excluded); a window of at most ten days is kept whole (see the
counterexample).  Forward returns enter at the open of the first trading day
strictly after the signal date and exit at the close of the `hd`-th such
day; absent price data yields `None` for every holding period. -/
theorem claim_C3_amended_leakage_and_returns (dates : List ℕ)
    (hnd : dates.Nodup) (hlen : maxHoldingDays < dates.length) :
    HOLDING_DAYS = [1, 3, 5, 7, 10] ∧
    maxHoldingDays = 10 ∧
    signal_dates dates = dates.take (dates.length - maxHoldingDays) ∧
    (∀ d ∈ dates.drop (dates.length - maxHoldingDays), d ∉ signal_dates dates) ∧
    (∀ (bars : List PriceBar) (signal_date hd : ℕ), hd ∈ HOLDING_DAYS →
      (bars.filter fun b => decide (signal_date < b.date)) ≠ [] →
      0 < ((bars.filter fun b => decide (signal_date < b.date)).headD default).openPrice →
      hd ≤ (bars.filter fun b => decide (signal_date < b.date)).length →
      0 < ((bars.filter fun b => decide (signal_date < b.date)).getD (hd - 1)
            default).closePrice →
      (get_returns (some bars) signal_date).lookup hd =
        some (some
          ((((bars.filter fun b => decide (signal_date < b.date)).getD (hd - 1)
              default).closePrice -
            ((bars.filter fun b => decide (signal_date < b.date)).headD
              default).openPrice) /
            ((bars.filter fun b => decide (signal_date < b.date)).headD
              default).openPrice))) ∧
    (∀ signal_date hd : ℕ, hd ∈ HOLDING_DAYS →
      (get_returns none signal_date).lookup hd = some none) := by
  have htake : signal_dates dates = dates.take (dates.length - maxHoldingDays) := by
    rw [signal_dates, if_pos hlen]
    have hdisj : List.Disjoint (dates.take (dates.length - maxHoldingDays))
        (dates.drop (dates.length - maxHoldingDays)) :=
      List.disjoint_take_drop hnd (le_refl _)
    exact (congrArg (fun l => List.filter
        (fun d => decide (d ∉ dates.drop (dates.length - maxHoldingDays))) l)
      (List.take_append_drop _ dates).symm).trans
      (filter_not_mem_of_disjoint _ _ hdisj)
  refine ⟨rfl, rfl, htake, ?_, ?_, ?_⟩
  · intro d hdrop hsig
    rw [htake] at hsig
    exact List.disjoint_take_drop hnd (le_refl _) hsig hdrop
  · intro bars signal_date hd hhd hfut hentry hle hexit
    have hbars : ¬bars.isEmpty = true := by
      simp only [List.isEmpty_iff]
      intro hb
      subst hb
      simp at hfut
    simp only [get_returns]
    rw [if_neg hbars]
    rw [if_neg (by simpa [List.isEmpty_iff] using hfut)]
    rw [if_neg (not_le.mpr hentry)]
    rw [lookup_pair_map _ _ _ hhd]
    rw [if_pos hle, if_pos hexit]
  · intro signal_date hd hhd
    simp only [get_returns, noneReturns]
    exact lookup_pair_map _ _ _ hhd

/-- Witness for the amended C3: an eleven-day window keeps only its first
day, its final day is excluded, and on the concrete bar fixture the one-day
return is `(103 − 102)/102` — close of the first post-signal day over its
open. -/
theorem claim_C3_amended_witness :
    signal_dates datesEleven = [1] ∧
    (11 : ℕ) ∉ signal_dates datesEleven ∧
    (get_returns (some fixtureBars) 10).lookup 1 = some (some (1/102)) := by
  have h := claim_C3_amended_leakage_and_returns datesEleven (by decide) (by decide)
  refine ⟨h.2.2.1.trans (by decide), h.2.2.2.1 11 (by decide), ?_⟩
  have h5 := h.2.2.2.2.1 fixtureBars 10 1 (by decide)
    (by with_unfolding_all decide) (by with_unfolding_all decide)
    (by with_unfolding_all decide) (by with_unfolding_all decide)
  exact h5.trans (by with_unfolding_all decide)

/-- Counterexample to C4 as stated: on concrete data where the sell group's
mean one-day forward return is `+10%` and the benchmark mean is `0`, the
grid search reports the sell group's excess as `−10%` — benchmark minus
group mean — not the claimed group mean minus benchmark (`+10%`). -/
theorem claim_C4_counterexample :
    (eval_sell_combo (-(1/20)) (3/10) 3 (3/10) c4DailyStats c4ReturnsMap
        (calc_benchmark c4DailyStats c4ReturnsMap)).map (fun r => r.stats.lookup 1) =
      some (some ⟨5, 1/10, 0, -(1/10)⟩) ∧
    benchGet (calc_benchmark c4DailyStats c4ReturnsMap) 1 = 0 ∧
    (1 : ℚ)/10 - benchGet (calc_benchmark c4DailyStats c4ReturnsMap) 1 = 1/10 ∧
    (-(1/10) : ℚ) ≠ 1/10 := by with_unfolding_all decide

/-- C4 (amended): for buy signal groups the reported excess return is the
group's mean forward return minus the benchmark mean; for sell groups the
source flips the sign and reports benchmark mean minus group mean (so that a
positive excess means the sell candidates underperformed the benchmark).
The benchmark itself is the mean return of all stocks mentioned in news on
the window's days, signal or not. -/
theorem claim_C4_amended_excess_definition :
    (∀ (sent_th overall_th : ℚ) (count_th : ℕ) (ratio_th : ℚ) (ds : DailyStats)
        (rm : ReturnsMap) (bench : List (ℕ × ℚ)) (res : ComboResult),
      eval_buy_combo sent_th overall_th count_th ratio_th ds rm bench = some res →
      ∀ (hd : ℕ) (st : HdStat), (hd, st) ∈ res.stats →
        st.avg = (hd_returns (selected_returns
            (buy_select sent_th overall_th count_th ratio_th) ds rm) hd).sum /
          ((hd_returns (selected_returns
            (buy_select sent_th overall_th count_th ratio_th) ds rm) hd).length : ℚ) ∧
        st.excess = st.avg - benchGet bench hd) ∧
    (∀ (sent_th overall_th : ℚ) (count_th : ℕ) (neg_ratio_th : ℚ) (ds : DailyStats)
        (rm : ReturnsMap) (bench : List (ℕ × ℚ)) (res : ComboResult),
      eval_sell_combo sent_th overall_th count_th neg_ratio_th ds rm bench = some res →
      ∀ (hd : ℕ) (st : HdStat), (hd, st) ∈ res.stats →
        st.avg = (hd_returns (selected_returns
            (sell_select sent_th overall_th count_th neg_ratio_th) ds rm) hd).sum /
          ((hd_returns (selected_returns
            (sell_select sent_th overall_th count_th neg_ratio_th) ds rm) hd).length : ℚ) ∧
        st.excess = benchGet bench hd - st.avg) ∧
    (∀ (ds : DailyStats) (rm : ReturnsMap) (hd : ℕ), hd ∈ HOLDING_DAYS →
      (calc_benchmark ds rm).lookup hd =
        some (if (allNewsReturns ds rm hd).isEmpty then 0
              else (allNewsReturns ds rm hd).sum /
                ((allNewsReturns ds rm hd).length : ℚ))) := by
  refine ⟨?_, ?_, ?_⟩
  · intro sent_th overall_th count_th ratio_th ds rm bench res h hd st hmem
    simp only [eval_buy_combo] at h
    split_ifs at h with h1 h2
    injection h with hres
    subst hres
    dsimp only at hmem
    simp only [buy_stats] at hmem
    obtain ⟨a, ha, hf⟩ := List.mem_filterMap.mp hmem
    by_cases h3 : (hd_returns (selected_returns
        (buy_select sent_th overall_th count_th ratio_th) ds rm) a).isEmpty
    · rw [if_pos h3] at hf
      exact absurd hf (by simp)
    · rw [if_neg h3] at hf
      injection hf with hpair
      cases hpair
      exact ⟨rfl, rfl⟩
  · intro sent_th overall_th count_th neg_ratio_th ds rm bench res h hd st hmem
    simp only [eval_sell_combo] at h
    split_ifs at h with h1 h2
    injection h with hres
    subst hres
    dsimp only at hmem
    simp only [sell_stats] at hmem
    obtain ⟨a, ha, hf⟩ := List.mem_filterMap.mp hmem
    by_cases h3 : (hd_returns (selected_returns
        (sell_select sent_th overall_th count_th neg_ratio_th) ds rm) a).isEmpty
    · rw [if_pos h3] at hf
      exact absurd hf (by simp)
    · rw [if_neg h3] at hf
      injection hf with hpair
      cases hpair
      exact ⟨rfl, rfl⟩
  · intro ds rm hd hhd
    simp only [calc_benchmark]
    exact lookup_pair_map _ _ _ hhd

/-- Witness for the amended C4: on the concrete fixture data, the reported
sell excess at one holding day equals benchmark mean minus group mean. -/
theorem claim_C4_amended_witness :
    (⟨5, 1/10, 0, -(1/10)⟩ : HdStat).excess =
      benchGet (calc_benchmark c4DailyStats c4ReturnsMap) 1 -
        (⟨5, 1/10, 0, -(1/10)⟩ : HdStat).avg := by
  have h := claim_C4_amended_excess_definition.2.1 (-(1/20)) (3/10) 3 (3/10)
    c4DailyStats c4ReturnsMap (calc_benchmark c4DailyStats c4ReturnsMap)
    c4SellResult (by with_unfolding_all decide) 1 ⟨5, 1/10, 0, -(1/10)⟩
    (by with_unfolding_all decide)
  exact h.2

end NewsQuant
